import Mathlib

/-!
Verification of the inventory stock-ledger backend.

The embedding follows the source routes:
* `src/routes/inventory.js` — the three movement endpoints (`POST /entrada`,
  `POST /salida`, `POST /ajuste`), the movement list query (`GET /`), and the
  shared `inventoryValidation` middleware;
* `src/unnamed/part_001` (the products router) — `POST /`, `PUT /:id`,
  `DELETE /:id`;
* `src/database/schema.sql` — the `productos` and `movimientos_inventario`
  tables (MySQL signed `INT` columns are modelled as `Int`).

Stateful SQL is modelled as explicit state passing over a `DB` record; each
route handler returns the post-state together with an `Except`-typed result.
-/

namespace Inventario

/-- A row of the `productos` table (the fields the routes use). -/
structure Producto where
  id : Nat
  codigo : String
  nombre : String
  precio : Int
  stock_minimo : Int
  stock_actual : Int
  activo : Bool
  deriving Repr, DecidableEq

/-- A row of the `movimientos_inventario` table. `tipo` is the ENUM string
(`entrada` / `salida` / `ajuste`) exactly as the INSERT statements write it;
`fecha_movimiento` is the commit timestamp (`CURRENT_TIMESTAMP`). -/
structure Movimiento where
  id : Nat
  producto_id : Nat
  tipo : String
  cantidad : Int
  cantidad_anterior : Int
  cantidad_nueva : Int
  motivo : Option String
  usuario_id : Nat
  fecha_movimiento : Nat
  deriving Repr, DecidableEq

/-- The database state the routes read and write: the two tables plus the
auto-increment counters. -/
structure DB where
  productos : List Producto
  movimientos : List Movimiento
  nextMovimientoId : Nat
  nextProductoId : Nat
  deriving Repr, DecidableEq

/-- Body of a movement request: `producto_id`, `tipo`, `cantidad`, `motivo`.
`cantidad` and `producto_id` are `Int` (the validator constrains them). -/
structure InvRequest where
  producto_id : Int
  tipo : String
  cantidad : Int
  motivo : Option String
  deriving Repr, DecidableEq

/-- `motivo` is optional with at most 500 characters (`inventoryValidation`). -/
def motivoOk : Option String → Bool
  | none => true
  | some s => s.length ≤ 500

/-- The shared `inventoryValidation` middleware: `producto_id` an integer
`≥ 1`, `tipo` one of the three literals, `cantidad` an integer `≥ 1`,
`motivo` optional of length `≤ 500`. -/
def validInvRequest (r : InvRequest) : Bool :=
  decide (1 ≤ r.producto_id) &&
  (r.tipo == "entrada" || r.tipo == "salida" || r.tipo == "ajuste") &&
  decide (1 ≤ r.cantidad) &&
  motivoOk r.motivo

/-- Typed errors of the movement endpoints: 400 validation failure,
404 product missing/inactive, 400 insufficient stock (the response message
carries the available and requested amounts). -/
inductive ApiError where
  | datosInvalidos
  | productoNoEncontrado
  | stockInsuficiente (disponible : Int) (solicitado : Int)
  deriving Repr, DecidableEq

/-- `SELECT id, nombre, stock_actual FROM productos WHERE id = ? AND activo = 1`. -/
def findProducto (db : DB) (pid : Int) : Option Producto :=
  db.productos.find? (fun p => ((p.id : Int) == pid) && p.activo)

/-- `UPDATE productos SET stock_actual = ? WHERE id = ?` (no `activo` filter). -/
def setStock (db : DB) (pid : Nat) (v : Int) : DB :=
  { db with
    productos := db.productos.map
      (fun p => if p.id = pid then { p with stock_actual := v } else p) }

/-- Modelled from the spec: `executeTransaction` is defined in
`src/config/database.js`, which is absent from the source tree (only its
callers are present). Per the spec's atomicity contract the movement INSERT
and the stock UPDATE execute as a single all-or-nothing unit; here that is
one pure state transition performing both writes. -/
def executeTransaction (db : DB) (mov : Movimiento) (pid : Nat) (nuevo : Int) : DB :=
  setStock
    { db with
      movimientos := db.movimientos ++ [mov],
      nextMovimientoId := db.nextMovimientoId + 1 }
    pid nuevo

/-- `POST /api/inventory/entrada`: validate, look up the active product,
compute `cantidad_nueva = cantidad_anterior + cantidad`, then commit the
movement row and the stock overwrite in one transaction. -/
def entrada (db : DB) (req : InvRequest) (usuario_id : Nat) (now : Nat) :
    DB × Except ApiError Movimiento :=
  if validInvRequest req then
    match findProducto db req.producto_id with
    | none => (db, .error .productoNoEncontrado)
    | some producto =>
      let cantidad_anterior := producto.stock_actual
      let cantidad_nueva := cantidad_anterior + req.cantidad
      let mov : Movimiento :=
        { id := db.nextMovimientoId
          producto_id := producto.id
          tipo := "entrada"
          cantidad := req.cantidad
          cantidad_anterior := cantidad_anterior
          cantidad_nueva := cantidad_nueva
          motivo := req.motivo
          usuario_id := usuario_id
          fecha_movimiento := now }
      (executeTransaction db mov producto.id cantidad_nueva, .ok mov)
  else (db, .error .datosInvalidos)

/-- `POST /api/inventory/salida`: like `entrada` but rejects with
`Stock insuficiente` when `cantidad_anterior < cantidad`, before any write,
and commits `cantidad_nueva = cantidad_anterior - cantidad`. -/
def salida (db : DB) (req : InvRequest) (usuario_id : Nat) (now : Nat) :
    DB × Except ApiError Movimiento :=
  if validInvRequest req then
    match findProducto db req.producto_id with
    | none => (db, .error .productoNoEncontrado)
    | some producto =>
      let cantidad_anterior := producto.stock_actual
      if cantidad_anterior < req.cantidad then
        (db, .error (.stockInsuficiente cantidad_anterior req.cantidad))
      else
        let cantidad_nueva := cantidad_anterior - req.cantidad
        let mov : Movimiento :=
          { id := db.nextMovimientoId
            producto_id := producto.id
            tipo := "salida"
            cantidad := req.cantidad
            cantidad_anterior := cantidad_anterior
            cantidad_nueva := cantidad_nueva
            motivo := req.motivo
            usuario_id := usuario_id
            fecha_movimiento := now }
        (executeTransaction db mov producto.id cantidad_nueva, .ok mov)
  else (db, .error .datosInvalidos)

/-- `POST /api/inventory/ajuste`: the input `cantidad` is the new absolute
stock value (`cantidad_nueva = cantidad`); the ledger row records
`Math.abs(cantidad_nueva - cantidad_anterior)` in its `cantidad` field. -/
def ajuste (db : DB) (req : InvRequest) (usuario_id : Nat) (now : Nat) :
    DB × Except ApiError Movimiento :=
  if validInvRequest req then
    match findProducto db req.producto_id with
    | none => (db, .error .productoNoEncontrado)
    | some producto =>
      let cantidad_anterior := producto.stock_actual
      let cantidad_nueva := req.cantidad
      let mov : Movimiento :=
        { id := db.nextMovimientoId
          producto_id := producto.id
          tipo := "ajuste"
          cantidad := |cantidad_nueva - cantidad_anterior|
          cantidad_anterior := cantidad_anterior
          cantidad_nueva := cantidad_nueva
          motivo := req.motivo
          usuario_id := usuario_id
          fecha_movimiento := now }
      (executeTransaction db mov producto.id cantidad_nueva, .ok mov)
  else (db, .error .datosInvalidos)

/-- Body of a product create/update request (the products router reads
`nombre, descripcion, precio, stock, stock_minimo, categoria_id` from the
body with no validation middleware at all). -/
structure ProductoRequest where
  nombre : String
  descripcion : Option String
  precio : Int
  stock : Int
  stock_minimo : Int
  deriving Repr, DecidableEq

/-- `POST /api/products`: INSERT with a generated code and the raw `stock`
value from the body (`activo` defaults to 1 in the schema). -/
def createProducto (db : DB) (req : ProductoRequest) (now : Nat) : DB :=
  let p : Producto :=
    { id := db.nextProductoId
      codigo := "PROD-" ++ toString now
      nombre := req.nombre
      precio := req.precio
      stock_minimo := req.stock_minimo
      stock_actual := req.stock
      activo := true }
  { db with productos := db.productos ++ [p], nextProductoId := db.nextProductoId + 1 }

/-- `PUT /api/products/:id`: `UPDATE productos SET nombre = ?, ...,
stock_actual = ?, stock_minimo = ? WHERE id = ? AND activo = 1`; 404 when no
row is affected. The raw `stock` from the body overwrites `stock_actual`. -/
def updateProducto (db : DB) (pid : Nat) (req : ProductoRequest) :
    DB × Except ApiError Unit :=
  if db.productos.any (fun p => (p.id == pid) && p.activo) then
    ({ db with
        productos := db.productos.map
          (fun p =>
            if p.id = pid ∧ p.activo then
              { p with
                nombre := req.nombre
                precio := req.precio
                stock_actual := req.stock
                stock_minimo := req.stock_minimo }
            else p) },
     .ok ())
  else (db, .error .productoNoEncontrado)

/-- `DELETE /api/products/:id`: soft delete
(`UPDATE productos SET activo = 0 WHERE id = ? AND activo = 1`). -/
def deleteProducto (db : DB) (pid : Nat) : DB × Except ApiError Unit :=
  if db.productos.any (fun p => (p.id == pid) && p.activo) then
    ({ db with
        productos := db.productos.map
          (fun p => if p.id = pid ∧ p.activo then { p with activo := false } else p) },
     .ok ())
  else (db, .error .productoNoEncontrado)

/-- The stock-mutating operations of the system: the three movement
endpoints and the product create/update/delete endpoints. -/
inductive Op where
  | entrada (req : InvRequest) (usuario_id : Nat) (now : Nat)
  | salida (req : InvRequest) (usuario_id : Nat) (now : Nat)
  | ajuste (req : InvRequest) (usuario_id : Nat) (now : Nat)
  | createProducto (req : ProductoRequest) (now : Nat)
  | updateProducto (pid : Nat) (req : ProductoRequest)
  | deleteProducto (pid : Nat)
  deriving Repr, DecidableEq

/-- Post-state of one operation (error responses leave the state as is). -/
def step (db : DB) : Op → DB
  | .entrada req uid now => (entrada db req uid now).1
  | .salida req uid now => (salida db req uid now).1
  | .ajuste req uid now => (ajuste db req uid now).1
  | .createProducto req now => createProducto db req now
  | .updateProducto pid req => (updateProducto db pid req).1
  | .deleteProducto pid => (deleteProducto db pid).1

/-- Run a sequence of operations. -/
def runOps (db : DB) (ops : List Op) : DB :=
  ops.foldl step db

/-- The operation goes through the three inventory movement endpoints. -/
def Op.isInv : Op → Bool
  | .entrada _ _ _ => true
  | .salida _ _ _ => true
  | .ajuste _ _ _ => true
  | _ => false

/-- Current stock of product `pid` as a reader sees it
(`SELECT stock_actual FROM productos WHERE id = ?`). -/
def stockOfList (l : List Producto) (pid : Nat) : Option Int :=
  (l.find? (fun p => p.id == pid)).map (fun p => p.stock_actual)

/-- Current stock of product `pid` in state `db`. -/
def stockOf (db : DB) (pid : Nat) : Option Int :=
  stockOfList db.productos pid

/-! ### Concrete fixtures used by witnesses and counterexamples -/

/-- Scenario A product: stock 50, minimum 10 (spec §8). -/
def pA : Producto :=
  { id := 1, codigo := "PROD-100", nombre := "martillo", precio := 5,
    stock_minimo := 10, stock_actual := 50, activo := true }

/-- A one-product database at stock 50 with an empty ledger. -/
def dbA : DB :=
  { productos := [pA], movimientos := [], nextMovimientoId := 1, nextProductoId := 2 }

/-- Scenario B product: stock 10. -/
def pB : Producto :=
  { id := 1, codigo := "PROD-200", nombre := "clavo", precio := 2,
    stock_minimo := 3, stock_actual := 10, activo := true }

/-- A one-product database at stock 10 with an empty ledger. -/
def dbB : DB :=
  { productos := [pB], movimientos := [], nextMovimientoId := 1, nextProductoId := 2 }

/-- An entry request for 5 units of product 1. -/
def reqE : InvRequest :=
  { producto_id := 1, tipo := "entrada", cantidad := 5, motivo := none }

/-- An exit request for 50 units of product 1. -/
def reqS50 : InvRequest :=
  { producto_id := 1, tipo := "salida", cantidad := 50, motivo := none }

/-- An exit request for 1 unit of product 1. -/
def reqS1 : InvRequest :=
  { producto_id := 1, tipo := "salida", cantidad := 1, motivo := none }

/-- An adjustment request to absolute value 7 for product 1. -/
def reqA7 : InvRequest :=
  { producto_id := 1, tipo := "ajuste", cantidad := 7, motivo := none }

/-- A product edit whose body carries `stock = 9`. -/
def reqU9 : ProductoRequest :=
  { nombre := "martillo", descripcion := none, precio := 5, stock := 9, stock_minimo := 10 }

/-- A product edit whose body carries the negative `stock = -3`
(the products router has no validation middleware). -/
def reqUneg : ProductoRequest :=
  { nombre := "martillo", descripcion := none, precio := 5, stock := -3, stock_minimo := 10 }

/-! ### Supporting lemmas -/

theorem findProducto_eq_some {db : DB} {pid : Int} {p : Producto}
    (h : findProducto db pid = some p) :
    p ∈ db.productos ∧ (p.id : Int) = pid ∧ p.activo = true := by
  have hmem := List.mem_of_find?_eq_some h
  have hp := List.find?_some h
  simp only [Bool.and_eq_true, beq_iff_eq] at hp
  exact ⟨hmem, hp.1, hp.2⟩

theorem updStock_pred (pid : Nat) (v : Int) (q : Int) :
    ((fun p : Producto => ((p.id : Int) == q) && p.activo) ∘
      (fun p => if p.id = pid then { p with stock_actual := v } else p))
    = (fun p : Producto => ((p.id : Int) == q) && p.activo) := by
  funext p; by_cases hp : p.id = pid <;> simp [hp]

theorem stockOfList_update_mem (l : List Producto) (pid : Nat) (v : Int)
    (h : ∃ p ∈ l, p.id = pid) :
    stockOfList (l.map (fun p => if p.id = pid then { p with stock_actual := v } else p)) pid
      = some v := by
  have hpred : ((fun p : Producto => p.id == pid) ∘
      (fun p => if p.id = pid then { p with stock_actual := v } else p))
      = (fun p : Producto => p.id == pid) := by
    funext p; by_cases hp : p.id = pid <;> simp [hp]
  rcases hfind : l.find? (fun p : Producto => p.id == pid) with _ | p0
  · exfalso
    have hsome : (l.find? (fun p : Producto => p.id == pid)).isSome := by
      apply List.find?_isSome.mpr
      rcases h with ⟨p, hp, hid⟩
      exact ⟨p, hp, by simp [hid]⟩
    rw [hfind] at hsome; simp at hsome
  · have hid : p0.id = pid := by simpa using List.find?_some hfind
    simp [stockOfList, List.find?_map, hpred, hfind, hid]

theorem findProducto_setStock (db : DB) (pid : Nat) (v : Int) (q : Int) :
    findProducto (setStock db pid v) q =
      (findProducto db q).map
        (fun p => if p.id = pid then { p with stock_actual := v } else p) := by
  simp [findProducto, setStock, List.find?_map, updStock_pred]

theorem executeTransaction_movimientos (db : DB) (mov : Movimiento) (pid : Nat) (v : Int) :
    (executeTransaction db mov pid v).movimientos = db.movimientos ++ [mov] := rfl

theorem stockOf_executeTransaction (db : DB) (mov : Movimiento) (pid : Nat) (v : Int)
    (h : ∃ p ∈ db.productos, p.id = pid) :
    stockOf (executeTransaction db mov pid v) pid = some v :=
  stockOfList_update_mem db.productos pid v h

theorem findProducto_executeTransaction (db : DB) (mov : Movimiento) (pid : Nat) (v : Int)
    (q : Int) :
    findProducto (executeTransaction db mov pid v) q =
      (findProducto db q).map
        (fun p => if p.id = pid then { p with stock_actual := v } else p) := by
  simp [findProducto, executeTransaction, setStock, List.find?_map, updStock_pred]

/-! ### C1 — validation before any write, commit as one unit -/

/-- C1: for every movement call (`entrada`, `salida`, `ajuste`), every
validation failure — invalid request data (quantity, kind, product id),
product not found or inactive, insufficient stock — is returned to the caller
with the state unchanged (no partial writes), and on success the movement
append and the stock overwrite are committed as one all-or-nothing unit: the
post-state simultaneously has the appended movement row and the product's
stock equal to that row's `cantidad_nueva`. -/
theorem c1_validation_before_write_and_atomic_commit :
    ∀ (db : DB) (req : InvRequest) (uid now : Nat),
      ((∀ e, (entrada db req uid now).2 = .error e → (entrada db req uid now).1 = db) ∧
       (validInvRequest req = false → (entrada db req uid now).2 = .error .datosInvalidos) ∧
       (validInvRequest req = true → findProducto db req.producto_id = none →
         (entrada db req uid now).2 = .error .productoNoEncontrado) ∧
       (∀ m, (entrada db req uid now).2 = .ok m →
         (entrada db req uid now).1.movimientos = db.movimientos ++ [m] ∧
         stockOf (entrada db req uid now).1 m.producto_id = some m.cantidad_nueva)) ∧
      ((∀ e, (salida db req uid now).2 = .error e → (salida db req uid now).1 = db) ∧
       (validInvRequest req = false → (salida db req uid now).2 = .error .datosInvalidos) ∧
       (validInvRequest req = true → findProducto db req.producto_id = none →
         (salida db req uid now).2 = .error .productoNoEncontrado) ∧
       (∀ p, validInvRequest req = true → findProducto db req.producto_id = some p →
         p.stock_actual < req.cantidad →
         (salida db req uid now).2 = .error (.stockInsuficiente p.stock_actual req.cantidad)) ∧
       (∀ m, (salida db req uid now).2 = .ok m →
         (salida db req uid now).1.movimientos = db.movimientos ++ [m] ∧
         stockOf (salida db req uid now).1 m.producto_id = some m.cantidad_nueva)) ∧
      ((∀ e, (ajuste db req uid now).2 = .error e → (ajuste db req uid now).1 = db) ∧
       (validInvRequest req = false → (ajuste db req uid now).2 = .error .datosInvalidos) ∧
       (validInvRequest req = true → findProducto db req.producto_id = none →
         (ajuste db req uid now).2 = .error .productoNoEncontrado) ∧
       (∀ m, (ajuste db req uid now).2 = .ok m →
         (ajuste db req uid now).1.movimientos = db.movimientos ++ [m] ∧
         stockOf (ajuste db req uid now).1 m.producto_id = some m.cantidad_nueva)) := by
  intro db req uid now
  refine ⟨?_, ?_, ?_⟩
  · by_cases hv : validInvRequest req
    · rcases hf : findProducto db req.producto_id with _ | p
      · simp [entrada, hv, hf]
      · obtain ⟨hmem, hid, hact⟩ := findProducto_eq_some hf
        refine ⟨?_, ?_, ?_, ?_⟩
        · intro e he; simp [entrada, hv, hf] at he
        · intro h; rw [h] at hv; cases hv
        · intro _ h; cases h
        · intro m hm
          simp only [entrada, hv, if_true, hf] at hm ⊢
          cases hm
          exact ⟨executeTransaction_movimientos ..,
            stockOf_executeTransaction _ _ _ _ ⟨p, hmem, rfl⟩⟩
    · simp [entrada, hv]
  · by_cases hv : validInvRequest req
    · rcases hf : findProducto db req.producto_id with _ | p
      · simp [salida, hv, hf]
      · obtain ⟨hmem, hid, hact⟩ := findProducto_eq_some hf
        by_cases hs : p.stock_actual < req.cantidad
        · refine ⟨?_, ?_, ?_, ?_, ?_⟩
          · intro e he; simp [salida, hv, hf, hs]
          · intro h; rw [h] at hv; cases hv
          · intro _ h; cases h
          · intro q _ hq _; cases hq; simp [salida, hv, hf, hs]
          · intro m hm; simp [salida, hv, hf, hs] at hm
        · refine ⟨?_, ?_, ?_, ?_, ?_⟩
          · intro e he; simp [salida, hv, hf, hs] at he
          · intro h; rw [h] at hv; cases hv
          · intro _ h; cases h
          · intro q _ hq hlt; cases hq; exact absurd hlt hs
          · intro m hm
            simp only [salida, hv, if_true, hf, hs, if_false] at hm ⊢
            cases hm
            exact ⟨executeTransaction_movimientos ..,
              stockOf_executeTransaction _ _ _ _ ⟨p, hmem, rfl⟩⟩
    · simp [salida, hv]
  · by_cases hv : validInvRequest req
    · rcases hf : findProducto db req.producto_id with _ | p
      · simp [ajuste, hv, hf]
      · obtain ⟨hmem, hid, hact⟩ := findProducto_eq_some hf
        refine ⟨?_, ?_, ?_, ?_⟩
        · intro e he; simp [ajuste, hv, hf] at he
        · intro h; rw [h] at hv; cases hv
        · intro _ h; cases h
        · intro m hm
          simp only [ajuste, hv, if_true, hf] at hm ⊢
          cases hm
          exact ⟨executeTransaction_movimientos ..,
            stockOf_executeTransaction _ _ _ _ ⟨p, hmem, rfl⟩⟩
    · simp [ajuste, hv]

/-- The movement committed by `entrada dbA reqE 7 100`. -/
def movE : Movimiento :=
  { id := 1, producto_id := 1, tipo := "entrada", cantidad := 5,
    cantidad_anterior := 50, cantidad_nueva := 55, motivo := none,
    usuario_id := 7, fecha_movimiento := 100 }

/-- Witness for C1: a successful entry of 5 on the stock-50 fixture appends
exactly its movement row and leaves the product at stock 55. -/
theorem c1_validation_before_write_and_atomic_commit_witness :
    (entrada dbA reqE 7 100).1.movimientos = dbA.movimientos ++ [movE] ∧
    stockOf (entrada dbA reqE 7 100).1 movE.producto_id = some movE.cantidad_nueva :=
  (c1_validation_before_write_and_atomic_commit dbA reqE 7 100).1.2.2.2 movE (by rfl)

/-! ### C3 — exit semantics and insufficient stock -/

/-- The `inventoryValidation` bound on `cantidad`. -/
theorem valid_one_le_cantidad {req : InvRequest} (hv : validInvRequest req = true) :
    1 ≤ req.cantidad := by
  simp only [validInvRequest, Bool.and_eq_true, decide_eq_true_eq] at hv
  exact hv.1.2

/-- C3: an exit request on an active product fails with `InsufficientStock`
carrying the available and the requested amounts, and changes nothing, when
the requested quantity exceeds the current stock; otherwise it commits a
movement with `cantidad_nueva = stock_before - cantidad` and the product's
stock becomes that value (so an exit of exactly the current stock succeeds
leaving stock 0, and an exit of 1 from stock 0 fails). -/
theorem c3_salida_insufficient_stock_or_commit :
    ∀ (db : DB) (req : InvRequest) (uid now : Nat) (p : Producto),
      validInvRequest req = true →
      findProducto db req.producto_id = some p →
      (p.stock_actual < req.cantidad →
        salida db req uid now = (db, .error (.stockInsuficiente p.stock_actual req.cantidad))) ∧
      (req.cantidad ≤ p.stock_actual →
        ∃ m, (salida db req uid now).2 = .ok m ∧
          m.cantidad_anterior = p.stock_actual ∧
          m.cantidad_nueva = p.stock_actual - req.cantidad ∧
          (salida db req uid now).1.movimientos = db.movimientos ++ [m] ∧
          stockOf (salida db req uid now).1 p.id = some (p.stock_actual - req.cantidad)) := by
  intro db req uid now p hv hf
  obtain ⟨hmem, hid, hact⟩ := findProducto_eq_some hf
  constructor
  · intro hlt
    simp [salida, hv, hf, hlt]
  · intro hle
    have hnlt : ¬ p.stock_actual < req.cantidad := not_lt.mpr hle
    simp only [salida, hv, if_true, hf, hnlt, if_false]
    exact ⟨_, rfl, rfl, rfl, executeTransaction_movimientos ..,
      stockOf_executeTransaction _ _ _ _ ⟨p, hmem, rfl⟩⟩

/-- The Scenario A product after the exit of 50. -/
def pA0 : Producto := { pA with stock_actual := 0 }

/-- Witness for C3 (spec Scenario A): from stock 50 an exit of 50 succeeds
leaving stock 0, and a further exit of 1 fails with
`InsufficientStock (disponible 0, solicitado 1)` changing nothing. -/
theorem c3_salida_insufficient_stock_or_commit_witness :
    (∃ m, (salida dbA reqS50 7 100).2 = .ok m ∧
      m.cantidad_anterior = 50 ∧
      m.cantidad_nueva = 0 ∧
      (salida dbA reqS50 7 100).1.movimientos = dbA.movimientos ++ [m] ∧
      stockOf (salida dbA reqS50 7 100).1 1 = some 0) ∧
    salida (salida dbA reqS50 7 100).1 reqS1 8 101 =
      ((salida dbA reqS50 7 100).1, .error (.stockInsuficiente 0 1)) :=
  ⟨(c3_salida_insufficient_stock_or_commit dbA reqS50 7 100 pA (by rfl) (by rfl)).2 (by decide),
   (c3_salida_insufficient_stock_or_commit (salida dbA reqS50 7 100).1 reqS1 8 101 pA0
      (by rfl) (by rfl)).1 (by decide)⟩

/-! ### C4 — adjustment records the delta magnitude -/

/-- C4: a valid adjustment request with target `q` on an active product at
stock `s` commits a movement with `cantidad_anterior = s`,
`cantidad_nueva = q`, and a recorded `cantidad` field equal to `|q - s|`
(the magnitude of change, not the input), and the product's stock becomes
`q`. -/
theorem c4_ajuste_records_abs_delta :
    ∀ (db : DB) (req : InvRequest) (uid now : Nat) (p : Producto),
      validInvRequest req = true →
      findProducto db req.producto_id = some p →
      ∃ m, (ajuste db req uid now).2 = .ok m ∧
        m.cantidad_anterior = p.stock_actual ∧
        m.cantidad_nueva = req.cantidad ∧
        m.cantidad = |req.cantidad - p.stock_actual| ∧
        (ajuste db req uid now).1.movimientos = db.movimientos ++ [m] ∧
        stockOf (ajuste db req uid now).1 p.id = some req.cantidad := by
  intro db req uid now p hv hf
  obtain ⟨hmem, hid, hact⟩ := findProducto_eq_some hf
  simp only [ajuste, hv, if_true, hf]
  exact ⟨_, rfl, rfl, rfl, rfl, executeTransaction_movimientos ..,
    stockOf_executeTransaction _ _ _ _ ⟨p, hmem, rfl⟩⟩

/-- Witness for C4 (spec Scenario B): adjusting a stock-10 product to 7
records `cantidad = |7 - 10| = 3`, `cantidad_anterior = 10`,
`cantidad_nueva = 7`, and the stock becomes 7. -/
theorem c4_ajuste_records_abs_delta_witness :
    ∃ m, (ajuste dbB reqA7 7 100).2 = .ok m ∧
      m.cantidad_anterior = 10 ∧
      m.cantidad_nueva = 7 ∧
      m.cantidad = |(7 : Int) - 10| ∧
      (ajuste dbB reqA7 7 100).1.movimientos = dbB.movimientos ++ [m] ∧
      stockOf (ajuste dbB reqA7 7 100).1 1 = some 7 :=
  c4_ajuste_records_abs_delta dbB reqA7 7 100 pB (by rfl) (by rfl)

/-! ### C8 — adjustment idempotence -/

/-- C8: two consecutive successful adjustments to the same target `t` make
the second call a no-op on stock (`cantidad_nueva = cantidad_anterior = t`)
and record for it a movement whose `cantidad` field is 0. -/
theorem c8_ajuste_idempotent_second_call :
    ∀ (db : DB) (req : InvRequest) (uid1 now1 uid2 now2 : Nat) (p : Producto),
      validInvRequest req = true →
      findProducto db req.producto_id = some p →
      ∃ m2, (ajuste (ajuste db req uid1 now1).1 req uid2 now2).2 = .ok m2 ∧
        m2.cantidad_anterior = req.cantidad ∧
        m2.cantidad_nueva = m2.cantidad_anterior ∧
        m2.cantidad = 0 := by
  intro db req uid1 now1 uid2 now2 p hv hf
  obtain ⟨hmem, hid, hact⟩ := findProducto_eq_some hf
  have hdb1 : findProducto (ajuste db req uid1 now1).1 req.producto_id
      = some { p with stock_actual := req.cantidad } := by
    simp only [ajuste, hv, if_true, hf]
    rw [findProducto_executeTransaction, hf]
    simp
  generalize hg : (ajuste db req uid1 now1).1 = db1 at hdb1 ⊢
  simp only [ajuste, hv, if_true, hdb1]
  exact ⟨_, rfl, rfl, rfl, by simp⟩

/-- Witness for C8: adjusting the stock-10 fixture to 7 twice makes the
second movement record `cantidad_anterior = cantidad_nueva = 7` and
`cantidad = 0`. -/
theorem c8_ajuste_idempotent_second_call_witness :
    ∃ m2, (ajuste (ajuste dbB reqA7 7 100).1 reqA7 8 101).2 = .ok m2 ∧
      m2.cantidad_anterior = 7 ∧
      m2.cantidad_nueva = m2.cantidad_anterior ∧
      m2.cantidad = 0 :=
  c8_ajuste_idempotent_second_call dbB reqA7 7 100 8 101 pB (by rfl) (by rfl)

/-! ### C10 — shared quantity validation covers adjustment -/

/-- C10: the shared validation (`cantidad` an integer `≥ 1`) applies to all
three movement endpoints, so an adjustment (or entry/exit) whose quantity is
below 1 is rejected with a validation error leaving the state unchanged, and
a successful adjustment always commits `cantidad_nueva ≥ 1` — an adjustment
can never set a product's stock to 0. -/
theorem c10_shared_validation_rejects_ajuste_below_one :
    ∀ (db : DB) (req : InvRequest) (uid now : Nat),
      (req.cantidad < 1 →
        entrada db req uid now = (db, .error .datosInvalidos) ∧
        salida db req uid now = (db, .error .datosInvalidos) ∧
        ajuste db req uid now = (db, .error .datosInvalidos)) ∧
      (∀ m, (ajuste db req uid now).2 = .ok m →
        1 ≤ m.cantidad_nueva ∧ m.cantidad_nueva ≠ 0 ∧
        stockOf (ajuste db req uid now).1 m.producto_id = some m.cantidad_nueva) := by
  intro db req uid now
  constructor
  · intro hlt
    have h1 : ¬ (1 ≤ req.cantidad) := not_le.mpr hlt
    have hv : validInvRequest req = false := by
      simp [validInvRequest, h1]
    refine ⟨?_, ?_, ?_⟩ <;> simp [entrada, salida, ajuste, hv]
  · intro m hm
    by_cases hv : validInvRequest req
    · rcases hf : findProducto db req.producto_id with _ | p
      · simp [ajuste, hv, hf] at hm
      · obtain ⟨hmem, hid, hact⟩ := findProducto_eq_some hf
        have hc : 1 ≤ req.cantidad := valid_one_le_cantidad hv
        simp only [ajuste, hv, if_true, hf] at hm ⊢
        cases hm
        refine ⟨hc, ?_, stockOf_executeTransaction _ _ _ _ ⟨p, hmem, rfl⟩⟩
        show req.cantidad ≠ 0
        omega
    · simp [ajuste, hv] at hm

/-- An adjustment request whose target value is 0 (fails validation). -/
def reqA0 : InvRequest :=
  { producto_id := 1, tipo := "ajuste", cantidad := 0, motivo := none }

/-- Witness for C10: a target-0 adjustment is rejected by all three
endpoints with `datosInvalidos` and no state change. -/
theorem c10_shared_validation_rejects_ajuste_below_one_witness :
    entrada dbB reqA0 7 100 = (dbB, .error .datosInvalidos) ∧
    salida dbB reqA0 7 100 = (dbB, .error .datosInvalidos) ∧
    ajuste dbB reqA0 7 100 = (dbB, .error .datosInvalidos) :=
  (c10_shared_validation_rejects_ajuste_below_one dbB reqA0 7 100).1 (by decide)

/-! ### C2 — the per-movement formula and the last-snapshot invariant -/

/-- The §4.2 computation rule, read off a committed ledger row. For
`ajuste` the row cannot carry the sign of the change, so its defining
relation is `cantidad = |cantidad_nueva - cantidad_anterior|`; the theorem
for C2 states separately that a committed `ajuste` row's `cantidad_nueva`
is the supplied target value. -/
def movFormulaOk (m : Movimiento) : Prop :=
  (m.tipo = "entrada" → m.cantidad_nueva = m.cantidad_anterior + m.cantidad) ∧
  (m.tipo = "salida" → m.cantidad_nueva = m.cantidad_anterior - m.cantidad) ∧
  (m.tipo = "ajuste" → m.cantidad = |m.cantidad_nueva - m.cantidad_anterior|)

/-- The most recently committed movement of product `pid` (rows are
appended, so it is the last matching row). -/
def lastMovimientoDe (db : DB) (pid : Nat) : Option Movimiento :=
  db.movimientos.reverse.find? (fun m => m.producto_id == pid)

/-- Ledger consistency: every committed row satisfies the §4.2 formula and
every product's current stock equals the `cantidad_nueva` of its most
recently committed movement. -/
def LedgerInv (db : DB) : Prop :=
  (∀ m ∈ db.movimientos, movFormulaOk m) ∧
  (∀ p ∈ db.productos, ∀ m, lastMovimientoDe db p.id = some m →
    p.stock_actual = m.cantidad_nueva)

theorem lastMovimientoDe_executeTransaction (db : DB) (mov : Movimiento) (pid : Nat)
    (v : Int) (qid : Nat) :
    lastMovimientoDe (executeTransaction db mov pid v) qid =
      if mov.producto_id = qid then some mov else lastMovimientoDe db qid := by
  by_cases h : mov.producto_id = qid <;>
    simp [lastMovimientoDe, executeTransaction, setStock, h]

theorem ledgerInv_executeTransaction (db : DB) (mov : Movimiento) (v : Int)
    (hInv : LedgerInv db) (hform : movFormulaOk mov) (hnew : mov.cantidad_nueva = v) :
    LedgerInv (executeTransaction db mov mov.producto_id v) := by
  constructor
  · intro m hm
    rw [executeTransaction_movimientos] at hm
    rcases List.mem_append.mp hm with h | h
    · exact hInv.1 m h
    · rw [List.mem_singleton] at h
      subst h
      exact hform
  · intro p hp m hlast
    have hprod : (executeTransaction db mov mov.producto_id v).productos
        = db.productos.map
            (fun p => if p.id = mov.producto_id then { p with stock_actual := v } else p) := rfl
    rw [hprod] at hp
    rcases List.mem_map.mp hp with ⟨p0, hp0, rfl⟩
    have hfid : (if p0.id = mov.producto_id then
        ({ p0 with stock_actual := v } : Producto) else p0).id = p0.id := by
      by_cases hid : p0.id = mov.producto_id <;> simp [hid]
    rw [lastMovimientoDe_executeTransaction, hfid] at hlast
    by_cases hid : mov.producto_id = p0.id
    · rw [if_pos hid] at hlast
      cases hlast
      have hcond : p0.id = mov.producto_id := hid.symm
      simp [hcond, hnew]
    · rw [if_neg hid] at hlast
      have hcond : ¬ p0.id = mov.producto_id := fun hc => hid hc.symm
      simp only [hcond, if_false]
      exact hInv.2 p0 hp0 m hlast

theorem ledgerInv_step_inv (db : DB) (op : Op) (hop : op.isInv = true)
    (hInv : LedgerInv db) : LedgerInv (step db op) := by
  cases op with
  | entrada req uid now =>
    by_cases hv : validInvRequest req
    · rcases hf : findProducto db req.producto_id with _ | p
      · simpa [step, entrada, hv, hf] using hInv
      · simp only [step, entrada, hv, if_true, hf]
        exact ledgerInv_executeTransaction db _ _ hInv
          ⟨fun _ => rfl, fun h => by simp at h, fun h => by simp at h⟩ rfl
    · simpa [step, entrada, hv] using hInv
  | salida req uid now =>
    by_cases hv : validInvRequest req
    · rcases hf : findProducto db req.producto_id with _ | p
      · simpa [step, salida, hv, hf] using hInv
      · by_cases hs : p.stock_actual < req.cantidad
        · simpa [step, salida, hv, hf, hs] using hInv
        · simp only [step, salida, hv, if_true, hf, hs, if_false]
          exact ledgerInv_executeTransaction db _ _ hInv
            ⟨fun h => by simp at h, fun _ => rfl, fun h => by simp at h⟩ rfl
    · simpa [step, salida, hv] using hInv
  | ajuste req uid now =>
    by_cases hv : validInvRequest req
    · rcases hf : findProducto db req.producto_id with _ | p
      · simpa [step, ajuste, hv, hf] using hInv
      · simp only [step, ajuste, hv, if_true, hf]
        exact ledgerInv_executeTransaction db _ _ hInv
          ⟨fun h => by simp at h, fun h => by simp at h, fun _ => rfl⟩ rfl
    · simpa [step, ajuste, hv] using hInv
  | createProducto req now => simp [Op.isInv] at hop
  | updateProducto pid req => simp [Op.isInv] at hop
  | deleteProducto pid => simp [Op.isInv] at hop

theorem ledgerInv_runOps (db : DB) (ops : List Op) (hops : ∀ op ∈ ops, op.isInv = true)
    (hInv : LedgerInv db) : LedgerInv (runOps db ops) := by
  induction ops generalizing db with
  | nil => exact hInv
  | cons op ops ih =>
    exact ih (step db op) (fun o ho => hops o (List.mem_cons_of_mem _ ho))
      (ledgerInv_step_inv db op (hops op (List.mem_cons_self _ _)) hInv)

/-- C2: over every sequence of movement-engine operations, every committed
movement satisfies the kind-specific formula (Entry adds, Exit subtracts,
Adjustment's recorded quantity is the absolute delta) and each product's
`stock_actual` equals the `cantidad_nueva` of its most recently committed
movement; moreover a committed adjustment's `cantidad_nueva` is exactly the
supplied target value. -/
theorem c2_movement_formula_and_last_snapshot :
    (∀ (db : DB) (ops : List Op), (∀ op ∈ ops, op.isInv = true) → LedgerInv db →
      LedgerInv (runOps db ops)) ∧
    (∀ (db : DB) (req : InvRequest) (uid now : Nat) (m : Movimiento),
      (ajuste db req uid now).2 = .ok m → m.cantidad_nueva = req.cantidad) := by
  constructor
  · exact ledgerInv_runOps
  · intro db req uid now m hm
    by_cases hv : validInvRequest req
    · rcases hf : findProducto db req.producto_id with _ | p
      · simp [ajuste, hv, hf] at hm
      · simp only [ajuste, hv, if_true, hf] at hm
        cases hm
        rfl
    · simp [ajuste, hv] at hm

/-- Witness for C2: the ledger invariant holds on the stock-50 fixture and
is preserved by a concrete entry followed by an adjustment. -/
theorem c2_movement_formula_and_last_snapshot_witness :
    (∀ op ∈ [Op.entrada reqE 7 100, Op.ajuste reqA7 7 101], op.isInv = true) ∧
    LedgerInv dbA ∧
    LedgerInv (runOps dbA [Op.entrada reqE 7 100, Op.ajuste reqA7 7 101]) := by
  have hops : ∀ op ∈ [Op.entrada reqE 7 100, Op.ajuste reqA7 7 101], op.isInv = true := by
    decide
  have hbase : LedgerInv dbA := by
    constructor
    · intro m hm; simp [dbA] at hm
    · intro p hp m hm; simp [lastMovimientoDe, dbA] at hm
  exact ⟨hops, hbase, c2_movement_formula_and_last_snapshot.1 dbA _ hops hbase⟩

/-! ### C5 — non-negative stock -/

/-- Every stored product has non-negative current stock. -/
def NonNegStocks (db : DB) : Prop := ∀ p ∈ db.productos, 0 ≤ p.stock_actual

theorem nonNeg_executeTransaction (db : DB) (mov : Movimiento) (pid : Nat) (v : Int)
    (hv : 0 ≤ v) (h : NonNegStocks db) : NonNegStocks (executeTransaction db mov pid v) := by
  intro p hp
  have hprod : (executeTransaction db mov pid v).productos
      = db.productos.map (fun p => if p.id = pid then { p with stock_actual := v } else p) := rfl
  rw [hprod] at hp
  rcases List.mem_map.mp hp with ⟨p0, hp0, rfl⟩
  by_cases hid : p0.id = pid
  · simpa [hid] using hv
  · simpa [hid] using h p0 hp0

theorem nonNeg_step_inv (db : DB) (op : Op) (hop : op.isInv = true)
    (h : NonNegStocks db) : NonNegStocks (step db op) := by
  cases op with
  | entrada req uid now =>
    by_cases hv : validInvRequest req
    · rcases hf : findProducto db req.producto_id with _ | p
      · simpa [step, entrada, hv, hf] using h
      · obtain ⟨hmem, hid, hact⟩ := findProducto_eq_some hf
        have hc := valid_one_le_cantidad hv
        have hs := h p hmem
        simp only [step, entrada, hv, if_true, hf]
        exact nonNeg_executeTransaction _ _ _ _ (by omega) h
    · simpa [step, entrada, hv] using h
  | salida req uid now =>
    by_cases hv : validInvRequest req
    · rcases hf : findProducto db req.producto_id with _ | p
      · simpa [step, salida, hv, hf] using h
      · by_cases hs : p.stock_actual < req.cantidad
        · simpa [step, salida, hv, hf, hs] using h
        · simp only [step, salida, hv, if_true, hf, hs, if_false]
          exact nonNeg_executeTransaction _ _ _ _ (by omega) h
    · simpa [step, salida, hv] using h
  | ajuste req uid now =>
    by_cases hv : validInvRequest req
    · rcases hf : findProducto db req.producto_id with _ | p
      · simpa [step, ajuste, hv, hf] using h
      · have hc := valid_one_le_cantidad hv
        simp only [step, ajuste, hv, if_true, hf]
        exact nonNeg_executeTransaction _ _ _ _ (by omega) h
    · simpa [step, ajuste, hv] using h
  | createProducto req now => simp [Op.isInv] at hop
  | updateProducto pid req => simp [Op.isInv] at hop
  | deleteProducto pid => simp [Op.isInv] at hop

/-- The stock-50 fixture after the products router writes `stock = -3`. -/
def pAneg : Producto := { pA with stock_actual := -3 }

/-- C5 counterexample: the claim quantifies over product create/update
operations as well, but `PUT /api/products/:id` copies the raw body `stock`
into `stock_actual` with no validation, so one update drives the stock of
the (all-non-negative) fixture to `-3`. -/
theorem c5_counterexample_update_negative_stock :
    NonNegStocks dbA ∧
    Op.isInv (Op.updateProducto 1 reqUneg) = false ∧
    ¬ NonNegStocks (runOps dbA [Op.updateProducto 1 reqUneg]) := by
  refine ⟨?_, rfl, ?_⟩
  · intro p hp
    simp [dbA] at hp
    subst hp
    decide
  · intro hcon
    have hm : pAneg ∈ (runOps dbA [Op.updateProducto 1 reqUneg]).productos := by decide
    exact absurd (hcon pAneg hm) (by decide)

/-- C5 (amended): `stock_current ≥ 0` is preserved by every sequence of
movement-engine operations (entry adds a positive amount, exit is guarded by
the insufficient-stock check, adjustment targets are validated `≥ 1`); the
product create/update endpoints are excluded because they copy the raw body
`stock` with no validation. -/
theorem c5_amended_nonnegative_under_movement_ops :
    ∀ (db : DB) (ops : List Op), (∀ op ∈ ops, op.isInv = true) → NonNegStocks db →
      NonNegStocks (runOps db ops) := by
  intro db ops hops hnn
  induction ops generalizing db with
  | nil => exact hnn
  | cons op ops ih =>
    exact ih (step db op) (fun o ho => hops o (List.mem_cons_of_mem _ ho))
      (nonNeg_step_inv db op (hops op (List.mem_cons_self _ _)) hnn)

/-- Witness for the amended C5 at a concrete state and operation list. -/
theorem c5_amended_nonnegative_under_movement_ops_witness :
    (∀ op ∈ [Op.salida reqS50 7 100, Op.entrada reqE 7 101], op.isInv = true) ∧
    NonNegStocks dbA ∧
    NonNegStocks (runOps dbA [Op.salida reqS50 7 100, Op.entrada reqE 7 101]) := by
  have hops : ∀ op ∈ [Op.salida reqS50 7 100, Op.entrada reqE 7 101], op.isInv = true := by
    decide
  have hnn : NonNegStocks dbA := by
    intro p hp
    simp [dbA] at hp
    subst hp
    decide
  exact ⟨hops, hnn, c5_amended_nonnegative_under_movement_ops dbA _ hops hnn⟩

/-! ### C6 — who writes stock_current -/

/-- C6 counterexample: `PUT /api/products/:id` is not a movement operation,
appends no ledger row, and still rewrites the product's `stock_actual`
(here from 50 to 9), so the Stock Mutation Engine is not the sole writer of
`stock_current`. -/
theorem c6_counterexample_update_writes_stock_without_movement :
    Op.isInv (Op.updateProducto 1 reqU9) = false ∧
    (step dbA (Op.updateProducto 1 reqU9)).movimientos = dbA.movimientos ∧
    stockOf (step dbA (Op.updateProducto 1 reqU9)) 1 = some 9 ∧
    stockOf dbA 1 = some 50 := by decide

/-- C6 (amended): movements are appended only by the three inventory
endpoints, each append comes with the paired stock overwrite to the row's
`cantidad_nueva` inside the same transaction, and every operation appends at
most one row; but the product update endpoint also writes `stock_actual`
directly, without appending any movement. -/
theorem c6_amended_movement_append_pairs_stock_write :
    ∀ (db : DB) (op : Op),
      ((step db op).movimientos = db.movimientos ∨
        ∃ m, (step db op).movimientos = db.movimientos ++ [m]) ∧
      (∀ m, (step db op).movimientos = db.movimientos ++ [m] →
        op.isInv = true ∧ stockOf (step db op) m.producto_id = some m.cantidad_nueva) := by
  intro db op
  cases op with
  | entrada req uid now =>
    by_cases hv : validInvRequest req
    · rcases hf : findProducto db req.producto_id with _ | p
      · constructor
        · left; simp [step, entrada, hv, hf]
        · intro m hm
          simp only [step, entrada, hv, if_true, hf] at hm
          have hl := congrArg List.length hm
          simp at hl
      · obtain ⟨hmem, hid, hact⟩ := findProducto_eq_some hf
        constructor
        · right
          simp only [step, entrada, hv, if_true, hf]
          exact ⟨_, executeTransaction_movimientos ..⟩
        · intro m hm
          simp only [step, entrada, hv, if_true, hf] at hm ⊢
          rw [executeTransaction_movimientos] at hm
          have hmm := List.append_cancel_left hm
          simp only [List.cons.injEq, and_true] at hmm
          subst hmm
          exact ⟨rfl, stockOf_executeTransaction _ _ _ _ ⟨p, hmem, rfl⟩⟩
    · constructor
      · left; simp [step, entrada, hv]
      · intro m hm
        simp only [step, entrada, hv, if_false] at hm
        have hl := congrArg List.length hm
        simp at hl
  | salida req uid now =>
    by_cases hv : validInvRequest req
    · rcases hf : findProducto db req.producto_id with _ | p
      · constructor
        · left; simp [step, salida, hv, hf]
        · intro m hm
          simp only [step, salida, hv, if_true, hf] at hm
          have hl := congrArg List.length hm
          simp at hl
      · obtain ⟨hmem, hid, hact⟩ := findProducto_eq_some hf
        by_cases hs : p.stock_actual < req.cantidad
        · constructor
          · left; simp [step, salida, hv, hf, hs]
          · intro m hm
            simp only [step, salida, hv, if_true, hf, hs, if_true] at hm
            have hl := congrArg List.length hm
            simp at hl
        · constructor
          · right
            simp only [step, salida, hv, if_true, hf, hs, if_false]
            exact ⟨_, executeTransaction_movimientos ..⟩
          · intro m hm
            simp only [step, salida, hv, if_true, hf, hs, if_false] at hm ⊢
            rw [executeTransaction_movimientos] at hm
            have hmm := List.append_cancel_left hm
            simp only [List.cons.injEq, and_true] at hmm
            subst hmm
            exact ⟨rfl, stockOf_executeTransaction _ _ _ _ ⟨p, hmem, rfl⟩⟩
    · constructor
      · left; simp [step, salida, hv]
      · intro m hm
        simp only [step, salida, hv, if_false] at hm
        have hl := congrArg List.length hm
        simp at hl
  | ajuste req uid now =>
    by_cases hv : validInvRequest req
    · rcases hf : findProducto db req.producto_id with _ | p
      · constructor
        · left; simp [step, ajuste, hv, hf]
        · intro m hm
          simp only [step, ajuste, hv, if_true, hf] at hm
          have hl := congrArg List.length hm
          simp at hl
      · obtain ⟨hmem, hid, hact⟩ := findProducto_eq_some hf
        constructor
        · right
          simp only [step, ajuste, hv, if_true, hf]
          exact ⟨_, executeTransaction_movimientos ..⟩
        · intro m hm
          simp only [step, ajuste, hv, if_true, hf] at hm ⊢
          rw [executeTransaction_movimientos] at hm
          have hmm := List.append_cancel_left hm
          simp only [List.cons.injEq, and_true] at hmm
          subst hmm
          exact ⟨rfl, stockOf_executeTransaction _ _ _ _ ⟨p, hmem, rfl⟩⟩
    · constructor
      · left; simp [step, ajuste, hv]
      · intro m hm
        simp only [step, ajuste, hv, if_false] at hm
        have hl := congrArg List.length hm
        simp at hl
  | createProducto req now =>
    constructor
    · left; rfl
    · intro m hm
      have hl := congrArg List.length hm
      simp [step, createProducto] at hl
  | updateProducto pid req =>
    by_cases hc : db.productos.any (fun p => (p.id == pid) && p.activo)
    · constructor
      · left; simp [step, updateProducto, hc]
      · intro m hm
        simp only [step, updateProducto, hc, if_true] at hm
        have hl := congrArg List.length hm
        simp at hl
    · constructor
      · left; simp [step, updateProducto, hc]
      · intro m hm
        simp only [step, updateProducto, hc, if_false] at hm
        have hl := congrArg List.length hm
        simp at hl
  | deleteProducto pid =>
    by_cases hc : db.productos.any (fun p => (p.id == pid) && p.activo)
    · constructor
      · left; simp [step, deleteProducto, hc]
      · intro m hm
        simp only [step, deleteProducto, hc, if_true] at hm
        have hl := congrArg List.length hm
        simp at hl
    · constructor
      · left; simp [step, deleteProducto, hc]
      · intro m hm
        simp only [step, deleteProducto, hc, if_false] at hm
        have hl := congrArg List.length hm
        simp at hl

/-- Witness for the amended C6: a concrete entry appends its row and holds
the paired stock write. -/
theorem c6_amended_movement_append_pairs_stock_write_witness :
    Op.isInv (Op.entrada reqE 7 100) = true ∧
    stockOf (step dbA (Op.entrada reqE 7 100)) movE.producto_id = some movE.cantidad_nueva :=
  (c6_amended_movement_append_pairs_stock_write dbA (Op.entrada reqE 7 100)).2 movE (by decide)

/-! ### C9 — movement list ordering -/

/-- The optional filters of `GET /api/inventory` (`tipo`, `producto_id`,
`fecha_inicio`, `fecha_fin`); the route has no actor filter. -/
structure MovFilter where
  tipo : Option String
  producto_id : Option Int
  fecha_inicio : Option Nat
  fecha_fin : Option Nat
  deriving Repr, DecidableEq

/-- Conjunction of the route's optional WHERE clauses. -/
def matchesFilter (f : MovFilter) (m : Movimiento) : Bool :=
  (match f.tipo with | none => true | some t => m.tipo == t) &&
  (match f.producto_id with | none => true | some pid => (m.producto_id : Int) == pid) &&
  (match f.fecha_inicio with | none => true | some d => decide (d ≤ m.fecha_movimiento)) &&
  (match f.fecha_fin with | none => true | some d => decide (m.fecha_movimiento ≤ d))

/-- Sorted by timestamp, most recent first. -/
def sortedByFechaDesc (l : List Movimiento) : Prop :=
  l.Pairwise (fun a b => b.fecha_movimiento ≤ a.fecha_movimiento)

/-- `LIMIT ? OFFSET ?` with `offset = (page - 1) * limit`. -/
def paginate (page limit : Nat) (l : List Movimiento) : List Movimiento :=
  (l.drop ((page - 1) * limit)).take limit

/-- The guarantee of `ORDER BY m.fecha_movimiento DESC LIMIT ? OFFSET ?`:
the backend returns the page window of SOME timestamp-descending arrangement
of the filtered rows. The clause names no secondary sort key, so every
timestamp-descending permutation is an admissible result. -/
def queryResultOk (db : DB) (f : MovFilter) (page limit : Nat) (out : List Movimiento) : Prop :=
  ∃ full, full.Perm (db.movimientos.filter (matchesFilter f)) ∧
    sortedByFechaDesc full ∧ out = paginate page limit full

/-- The ordering the claim asserts: timestamp descending with ties broken by
id descending. -/
def claimOrdered (l : List Movimiento) : Prop :=
  l.Pairwise (fun a b => b.fecha_movimiento < a.fecha_movimiento ∨
    (b.fecha_movimiento = a.fecha_movimiento ∧ b.id < a.id))

/-- Two ledger rows sharing one timestamp, ids 1 and 2. -/
def mTie1 : Movimiento :=
  { id := 1, producto_id := 1, tipo := "entrada", cantidad := 1, cantidad_anterior := 0,
    cantidad_nueva := 1, motivo := none, usuario_id := 7, fecha_movimiento := 5 }

/-- The second row with the same timestamp. -/
def mTie2 : Movimiento :=
  { mTie1 with id := 2, cantidad_anterior := 1, cantidad_nueva := 2 }

/-- A database whose ledger holds the two equal-timestamp rows. -/
def dbTie : DB :=
  { productos := [pA], movimientos := [mTie1, mTie2], nextMovimientoId := 3, nextProductoId := 2 }

/-- The query with every filter absent. -/
def fNone : MovFilter :=
  { tipo := none, producto_id := none, fecha_inicio := none, fecha_fin := none }

/-- C9 counterexample: with two rows at the same timestamp (ids 1 and 2),
the id-ascending output `[mTie1, mTie2]` satisfies everything the query's
`ORDER BY m.fecha_movimiento DESC` requires, yet violates the claimed
id-descending tie order — the query enforces no tiebreak. -/
theorem c9_counterexample_no_tiebreak_on_equal_timestamps :
    queryResultOk dbTie fNone 1 10 [mTie1, mTie2] ∧
    ¬ claimOrdered [mTie1, mTie2] := by
  constructor
  · refine ⟨[mTie1, mTie2], ?_, ?_, rfl⟩
    · have hfil : dbTie.movimientos.filter (matchesFilter fNone) = [mTie1, mTie2] := by decide
      rw [hfil]
    · show List.Pairwise _ _
      decide
  · intro h
    have hrel : (mTie2.fecha_movimiento < mTie1.fecha_movimiento ∨
        (mTie2.fecha_movimiento = mTie1.fecha_movimiento ∧ mTie2.id < mTie1.id)) := by
      have hp := List.pairwise_cons.mp h
      exact hp.1 mTie2 (by simp)
    revert hrel
    decide

/-- C9 (amended): for every combination of the route's optional filters
(`tipo`, `producto_id`, date range — there is no actor filter) and every
page, the output is ordered by timestamp most recent first; the order among
rows with equal timestamps is unspecified (the query has no secondary sort
key). -/
theorem c9_amended_sorted_by_timestamp_desc_only :
    ∀ (db : DB) (f : MovFilter) (page limit : Nat) (out : List Movimiento),
      queryResultOk db f page limit out → sortedByFechaDesc out := by
  intro db f page limit out hq
  rcases hq with ⟨full, hperm, hsort, hout⟩
  subst hout
  exact hsort.sublist ((List.take_sublist _ _).trans (List.drop_sublist _ _))

/-- Witness for the amended C9 at a concrete query result. -/
theorem c9_amended_sorted_by_timestamp_desc_only_witness :
    queryResultOk dbTie fNone 1 10 [mTie2, mTie1] ∧
    sortedByFechaDesc [mTie2, mTie1] := by
  have hq : queryResultOk dbTie fNone 1 10 [mTie2, mTie1] := by
    refine ⟨[mTie2, mTie1], ?_, ?_, rfl⟩
    · have hfil : dbTie.movimientos.filter (matchesFilter fNone) = [mTie1, mTie2] := by decide
      rw [hfil]
      exact List.Perm.swap _ _ _
    · show List.Pairwise _ _
      decide
  exact ⟨hq, c9_amended_sorted_by_timestamp_desc_only dbTie fNone 1 10 [mTie2, mTie1] hq⟩

/-! ### C7 — concurrency -/

/-- Phase 1 of the `entrada` handler: everything before the transaction
(the validation and the product `SELECT`, an ordinary `executeQuery`).
It performs no write and returns the snapshot the handler closes over. -/
def entradaRead (db : DB) (req : InvRequest) : Except ApiError Producto :=
  if validInvRequest req then
    match findProducto db req.producto_id with
    | none => .error .productoNoEncontrado
    | some p => .ok p
  else .error .datosInvalidos

/-- The movement row `entrada` builds from its phase-1 snapshot. -/
def movEntrada (db : DB) (req : InvRequest) (producto : Producto) (usuario_id now : Nat) :
    Movimiento :=
  { id := db.nextMovimientoId
    producto_id := producto.id
    tipo := "entrada"
    cantidad := req.cantidad
    cantidad_anterior := producto.stock_actual
    cantidad_nueva := producto.stock_actual + req.cantidad
    motivo := req.motivo
    usuario_id := usuario_id
    fecha_movimiento := now }

/-- Phase 2 of the handler: the commit performed with the phase-1 snapshot.
`cantidad_anterior` comes from the snapshot (no re-read) and the UPDATE
writes the precomputed value unconditionally (no conflict check). -/
def entradaCommit (db : DB) (req : InvRequest) (producto : Producto) (usuario_id now : Nat) :
    DB × Movimiento :=
  (executeTransaction db (movEntrada db req producto usuario_id now) producto.id
      (producto.stock_actual + req.cantidad),
   movEntrada db req producto usuario_id now)

/-- The two phases compose to exactly the handler, so the interleaved model
below runs the real handler code split at its one `await` boundary. -/
theorem entrada_eq_read_then_commit (db : DB) (req : InvRequest) (uid now : Nat) :
    entrada db req uid now =
      match entradaRead db req with
      | .error e => (db, .error e)
      | .ok p => ((entradaCommit db req p uid now).1, .ok (entradaCommit db req p uid now).2) := by
  by_cases hv : validInvRequest req
  · rcases hf : findProducto db req.producto_id with _ | p
    · simp [entrada, entradaRead, hv, hf]
    · simp [entrada, entradaRead, entradaCommit, movEntrada, hv, hf]
  · simp [entrada, entradaRead, hv]

/-- One step of a successful `entrada` under the sequential semantics. -/
theorem entrada_step_found (db : DB) (req : InvRequest) (uid now : Nat) (p : Producto)
    (hv : validInvRequest req = true) (hf : findProducto db req.producto_id = some p) :
    findProducto (entrada db req uid now).1 req.producto_id
        = some { p with stock_actual := p.stock_actual + req.cantidad } ∧
    (entrada db req uid now).1.movimientos
        = db.movimientos ++ [movEntrada db req p uid now] := by
  constructor
  · simp only [entrada, hv, if_true, hf]
    rw [findProducto_executeTransaction, hf]
    simp
  · simp only [entrada, hv, if_true, hf]
    exact executeTransaction_movimientos ..

/-- One in-flight `entrada` request: its inputs, the snapshot captured by
phase 1 (`leido`, `none` until the read ran), and the final result. -/
structure Llamada where
  req : InvRequest
  usuario_id : Nat
  now : Nat
  leido : Option Producto
  resultado : Option (Except ApiError Movimiento)
  deriving Repr

/-- The shared database plus the in-flight requests. -/
structure Sistema where
  db : DB
  llamadas : List Llamada
  deriving Repr

/-- Run the next phase of request `i`: a request that has not read yet
executes phase 1 against the CURRENT database; a request holding a snapshot
commits phase 2 against the current database using that (possibly stale)
snapshot — exactly what the handler's unguarded read-then-transaction does
under Node's interleaving at `await` points. -/
def paso (s : Sistema) (i : Nat) : Sistema :=
  match s.llamadas[i]? with
  | none => s
  | some c =>
    match c.resultado with
    | some _ => s
    | none =>
      match c.leido with
      | none =>
        match entradaRead s.db c.req with
        | .error e =>
          { s with llamadas := s.llamadas.set i { c with resultado := some (.error e) } }
        | .ok p => { s with llamadas := s.llamadas.set i { c with leido := some p } }
      | some p =>
        let r := entradaCommit s.db c.req p c.usuario_id c.now
        { db := r.1, llamadas := s.llamadas.set i { c with resultado := some (.ok r.2) } }

/-- Run a whole interleaving schedule. -/
def ejecutar (s : Sistema) (sched : List Nat) : Sistema := sched.foldl paso s

/-- First concurrent caller: entry of 5 on product 1. -/
def llamadaE1 : Llamada :=
  { req := reqE, usuario_id := 7, now := 100, leido := none, resultado := none }

/-- Second concurrent caller: entry of 5 on the same product. -/
def llamadaE2 : Llamada :=
  { req := reqE, usuario_id := 8, now := 101, leido := none, resultado := none }

/-- Two concurrent entries of 5 against the stock-50 fixture. -/
def sis0 : Sistema := { db := dbA, llamadas := [llamadaE1, llamadaE2] }

/-- C7 counterexample: under the schedule read₁, read₂, commit₁, commit₂
both callers snapshot stock 50, both commits succeed, and the final stock is
55 — not the serialized 60. Both rows record `cantidad_anterior = 50`, so
the later movement's `stock_before` does not equal the earlier one's
`stock_after` (the snapshots do not telescope), and no conflict is detected:
there is no retry and no `PersistenceFailure`; the lost update is silent. -/
theorem c7_counterexample_concurrent_lost_update :
    (ejecutar sis0 [0, 1, 0, 1]).db.movimientos.map
        (fun m => (m.cantidad_anterior, m.cantidad_nueva)) = [(50, 55), (50, 55)] ∧
    ((ejecutar sis0 [0, 1, 0, 1]).db.movimientos.map (fun m => m.cantidad_anterior))[1]?
      ≠ ((ejecutar sis0 [0, 1, 0, 1]).db.movimientos.map (fun m => m.cantidad_nueva))[0]? ∧
    stockOf (ejecutar sis0 [0, 1, 0, 1]).db 1 = some 55 ∧
    (ejecutar sis0 [0, 1, 0, 1]).llamadas.map (fun c => c.resultado.isSome) = [true, true] := by
  decide

/-- N sequential (non-overlapping) entries. -/
def entradaIter (db : DB) (req : InvRequest) (uid now : Nat) : Nat → DB
  | 0 => db
  | n + 1 => (entrada (entradaIter db req uid now n) req uid now).1

/-- Full characterization of N sequential entries: final stock
`s + n * q`, exactly `n` appended rows whose snapshot columns are the
telescoping arithmetic sequence. -/
theorem entradaIter_spec (db : DB) (req : InvRequest) (uid now : Nat) (p : Producto)
    (hv : validInvRequest req = true) (hf : findProducto db req.producto_id = some p) :
    ∀ n : Nat,
      findProducto (entradaIter db req uid now n) req.producto_id
          = some { p with stock_actual := p.stock_actual + n * req.cantidad } ∧
      ∃ ms, (entradaIter db req uid now n).movimientos = db.movimientos ++ ms ∧
        ms.length = n ∧
        ms.map (fun m => m.cantidad_anterior)
          = (List.range n).map (fun i : Nat => p.stock_actual + (i : Int) * req.cantidad) ∧
        ms.map (fun m => m.cantidad_nueva)
          = (List.range n).map (fun i : Nat => p.stock_actual + ((i : Int) + 1) * req.cantidad) ∧
        (∀ x, ms.getLast? = some x →
          x.cantidad_nueva = p.stock_actual + n * req.cantidad) ∧
        List.Chain' (fun a b => b.cantidad_anterior = a.cantidad_nueva) ms := by
  intro n
  induction n with
  | zero =>
    refine ⟨by simpa using hf, [], by simp [entradaIter], rfl, by simp, by simp, ?_, by simp⟩
    intro x hx
    cases hx
  | succ n ih =>
    obtain ⟨hfn, ms, hmov, hlen, hant, hnue, hlast, hchain⟩ := ih
    obtain ⟨hfn1, hmov1⟩ := entrada_step_found (entradaIter db req uid now n) req uid now _ hv hfn
    have harith : p.stock_actual + (n : Int) * req.cantidad + req.cantidad
        = p.stock_actual + ((n : Nat) + 1 : Nat) * req.cantidad := by
      push_cast
      ring
    have hred : entradaIter db req uid now (n + 1)
        = (entrada (entradaIter db req uid now n) req uid now).1 := rfl
    constructor
    · rw [hred, hfn1]
      congr 1
      simp [harith]
    · refine ⟨ms ++ [movEntrada (entradaIter db req uid now n) req
        { p with stock_actual := p.stock_actual + n * req.cantidad } uid now],
        ?_, ?_, ?_, ?_, ?_, ?_⟩
      · rw [hred, hmov1, hmov, List.append_assoc]
      · simp [hlen]
      · rw [List.map_append, hant, List.range_succ, List.map_append]
        simp [movEntrada]
      · rw [List.map_append, hnue, List.range_succ, List.map_append]
        simp only [List.map_cons, List.map_nil, movEntrada]
        congr 2
      · intro x hx
        rw [List.getLast?_concat] at hx
        cases hx
        exact harith
      · rw [List.chain'_append]
        refine ⟨hchain, List.chain'_singleton _, ?_⟩
        intro x hx y hy
        simp only [List.head?_cons, Option.mem_def, Option.some.injEq] at hy
        subst hy
        simp only [movEntrada]
        exact (hlast x hx).symm

/-- C7 (amended): the handler reads the stock outside the transaction and
commits a precomputed value with no lock, no conflict check and no retry, so
concurrent movements on one product do NOT serialize (see the
counterexample: two overlapping entries of `q` from stock `s` can both
record `stock_before = s` and end at `s + q`, with no `PersistenceFailure`).
What does hold is the sequential case: N non-overlapping entries of `q`
starting from stock `s` end at exactly `s + N * q`, appending N movements
whose snapshots telescope in commit order. -/
theorem c7_amended_serializes_only_without_overlap :
    ∀ (db : DB) (req : InvRequest) (uid now : Nat) (p : Producto) (n : Nat),
      validInvRequest req = true →
      findProducto db req.producto_id = some p →
      findProducto (entradaIter db req uid now n) req.producto_id
          = some { p with stock_actual := p.stock_actual + n * req.cantidad } ∧
      ∃ ms, (entradaIter db req uid now n).movimientos = db.movimientos ++ ms ∧
        ms.length = n ∧
        List.Chain' (fun a b => b.cantidad_anterior = a.cantidad_nueva) ms := by
  intro db req uid now p n hv hf
  obtain ⟨h1, ms, h2, h3, _, _, _, h6⟩ := entradaIter_spec db req uid now p hv hf n
  exact ⟨h1, ms, h2, h3, h6⟩

/-- Witness for the amended C7: three sequential entries of 5 from stock 50
end at 65 with three telescoping rows. -/
theorem c7_amended_serializes_only_without_overlap_witness :
    findProducto (entradaIter dbA reqE 7 100 3) reqE.producto_id
        = some { pA with stock_actual := pA.stock_actual + ((3 : Nat) : Int) * reqE.cantidad } ∧
    ∃ ms, (entradaIter dbA reqE 7 100 3).movimientos = dbA.movimientos ++ ms ∧
      ms.length = 3 ∧
      List.Chain' (fun a b => b.cantidad_anterior = a.cantidad_nueva) ms :=
  c7_amended_serializes_only_without_overlap dbA reqE 7 100 pA 3 (by rfl) (by rfl)

end Inventario
